import Mathlib

/-!
Shallow embedding of CloudCIX/docgen (`docgen/management/commands/docgen.py`
and `docgen/defaults.py`).

JSON/YAML-like values are modelled by `Value`; Python dictionaries are
association lists (`Obj`) with Python's in-place-update semantics
(`objSet` replaces the value of an existing key in place, otherwise
appends).  Response-code keys are modelled by their decimal string form
(Python serialises integer keys as the same strings when dumping JSON).
-/

namespace Docgen

/-- JSON/YAML values as produced by `yaml.safe_load` / consumed by `json.dump`. -/
inductive Value where
  | str : String → Value
  | int : Int → Value
  | bool : Bool → Value
  | null : Value
  | arr : List Value → Value
  | obj : List (String × Value) → Value

/-- Python's `v == 'none'`: true exactly for the string value `'none'`. -/
def Value.isNoneStr : Value → Bool
  | .str s => s = "none"
  | _ => false

/-- Python's `v == s` for a string literal `s`: true exactly for that string value. -/
def Value.isStrEq : Value → String → Bool
  | .str s, t => s = t
  | _, _ => false

/-- A Python `dict` keyed by strings (insertion ordered). -/
abbrev Obj := List (String × Value)

/-- Models `d[k]` / `d.get(k)` on an association list. -/
def alookup {β : Type} : List (String × β) → String → Option β
  | [], _ => none
  | (k', v) :: rest, k => if k' = k then some v else alookup rest k

/-- Models `d[k] = v`: replace in place if the key exists, else append (Python dict semantics). -/
def aset {β : Type} : List (String × β) → String → β → List (String × β)
  | [], k, v => [(k, v)]
  | (k', v') :: rest, k, v =>
    if k' = k then (k, v) :: rest else (k', v') :: aset rest k v

/-- Models `d.pop(k, None)`: the removed value plus the remaining entries, or `none`. -/
def apop {β : Type} : List (String × β) → String → Option (β × List (String × β))
  | [], _ => none
  | (k', v') :: rest, k =>
    if k' = k then some (v', rest)
    else (apop rest k).map (fun p => (p.1, (k', v') :: p.2))

/-- Models `d.update(other)`: set every key of `other` into `d`, in order. -/
def aupdate {β : Type} (d other : List (String × β)) : List (String × β) :=
  other.foldl (fun acc kv => aset acc kv.1 kv.2) d

/-- The keys of a dict, in insertion order. -/
def akeys {β : Type} (d : List (String × β)) : List String := d.map Prod.fst

/-- Python truthiness of a YAML/JSON value. -/
def pyTruthy : Value → Bool
  | .str s => s ≠ ""
  | .int n => n ≠ 0
  | .bool b => b
  | .null => false
  | .arr l => !l.isEmpty
  | .obj o => !o.isEmpty

/-- Python's substring containment test `sub in s`. -/
def pyContains (s sub : String) : Bool :=
  (List.range (s.data.length + 1)).any (fun i => sub.data.isPrefixOf (s.data.drop i))

/-- Characters treated as whitespace by Python's `str.strip` family. -/
def pyIsSpace (c : Char) : Bool :=
  c = ' ' ∨ c = '\t' ∨ c = '\n' ∨ c = '\r' ∨ c = '\x0b' ∨ c = '\x0c'

/-- Models `str.lstrip()` on a list of characters. -/
def pyLstrip (l : List Char) : List Char := l.dropWhile pyIsSpace

/-- Models `str.rstrip()` on a list of characters. -/
def pyRstrip (l : List Char) : List Char := (l.reverse.dropWhile pyIsSpace).reverse

/-- Models `str.strip()` on a list of characters. -/
def pyStripChars (l : List Char) : List Char := pyRstrip (pyLstrip l)

/-- Models `str.strip()` on a string. -/
def pyStrip (s : String) : String := String.mk (pyStripChars s.data)

/-- Models `str.expandtabs()` (tab size 8; the column counter resets after a line break). -/
def expandTabsGo : List Char → Nat → List Char
  | [], _ => []
  | c :: rest, col =>
    if c = '\t' then
      let n := 8 - col % 8
      List.replicate n ' ' ++ expandTabsGo rest (col + n)
    else if c = '\n' ∨ c = '\r' then c :: expandTabsGo rest 0
    else c :: expandTabsGo rest (col + 1)

/-- Models `str.expandtabs()`. -/
def expandTabs (l : List Char) : List Char := expandTabsGo l 0

/-- Worker for `str.splitlines()`: `acc` is the current (reversed) line. -/
def splitLinesGo : List Char → List Char → List (List Char)
  | [], acc => [acc.reverse]
  | '\r' :: '\n' :: rest, acc =>
    if rest.isEmpty then [acc.reverse] else acc.reverse :: splitLinesGo rest []
  | '\n' :: rest, acc =>
    if rest.isEmpty then [acc.reverse] else acc.reverse :: splitLinesGo rest []
  | '\r' :: rest, acc =>
    if rest.isEmpty then [acc.reverse] else acc.reverse :: splitLinesGo rest []
  | c :: rest, acc => splitLinesGo rest (c :: acc)

/-- Models `str.splitlines()` (no trailing empty line for a trailing newline; `[]` for `""`). -/
def splitLines (l : List Char) : List (List Char) :=
  if l.isEmpty then [] else splitLinesGo l []

/-- Models `str.capitalize()`: first character upper-cased, the rest lower-cased. -/
def pyCapitalize : List Char → List Char
  | [] => []
  | c :: rest => c.toUpper :: rest.map Char.toLower

/-- Models `str.split()` with no argument: split on runs of whitespace, no empty parts. -/
def pySplitWs (l : List Char) : List (List Char) :=
  (l.splitOnP (fun c => pyIsSpace c)).filter (fun part => !part.isEmpty)

/-- Worker for `str.split('.')`. -/
def pySplitDotGo : List Char → List Char → List String
  | [], acc => [String.mk acc.reverse]
  | c :: rest, acc =>
    if c = '.' then String.mk acc.reverse :: pySplitDotGo rest []
    else pySplitDotGo rest (c :: acc)

/-- Models `str.split('.')` (empty parts kept; `""` yields `[""]`). -/
def pySplitDot (s : String) : List String := pySplitDotGo s.data []

/-- Models `Command.capitalise`: capitalise every whitespace-separated word. -/
def capitalise (s : String) : String :=
  String.intercalate " " ((pySplitWs s.data).map (fun w => String.mk (pyCapitalize w)))

/-!  `Command.doc_trim`.  The source computes the minimum indentation by
iterating over *all* lines (its comment says the first line does not count,
but the loop is `for line in lines`), and then appends a de-indented copy of
*every* line — the first line included — after the already-added stripped
first line.  Both loops are reproduced exactly as written. -/

/-- The `indent` computation of `doc_trim` (`none` plays `float('inf')`). -/
def docTrimIndent (lines : List (List Char)) : Option Nat :=
  lines.foldl (fun ind line =>
    let stripped := pyLstrip line
    if !stripped.isEmpty then
      let n := line.length - stripped.length
      match ind with
      | none => some n
      | some i => some (min i n)
    else ind) none

/-- Models `Command.doc_trim`. -/
def docTrim (docstring : String) : String :=
  if docstring = "" then ""
  else
    let lines := splitLines (expandTabs docstring.data)
    let indent := docTrimIndent lines
    let trimmed := [pyStripChars (lines.headD [])]
    let trimmed := trimmed ++ (match indent with
      | none => []
      | some i => lines.map (fun line => pyRstrip (line.drop i)))
    let trimmed := (trimmed.reverse.dropWhile List.isEmpty).reverse
    let trimmed := trimmed.dropWhile List.isEmpty
    String.intercalate "\n" (trimmed.map String.mk)

/-!  `docgen/defaults.py`: the seeded output document. -/

/-- Models `DEFAULT_SPEC['components']['responses']` from `defaults.py`: the only
response components ever placed in the document (nothing in `docgen.py`
writes to `components['responses']`). -/
def defaultResponses : Obj :=
  [ ("400", .obj
      [ ("description", .str "Input data was invalid"),
        ("content", .obj
          [ ("application/json", .obj
              [ ("schema", .obj
                  [ ("oneOf", .arr
                      [ .obj [("$ref", .str "#/components/schemas/Error")],
                        .obj [("$ref", .str "#/components/schemas/MultiError")] ]) ]) ]) ]) ]),
    ("401", .obj
      [ ("description", .str "No / invalid token provided"),
        ("content", .obj
          [ ("application/json", .obj
              [ ("schema", .obj
                  [ ("type", .str "object"),
                    ("properties", .obj
                      [ ("detail", .obj
                          [ ("type", .str "string"),
                            ("description", .str "Verbose error message explaining the error") ]) ]) ]) ]) ]) ]),
    ("403", .obj
      [ ("description", .str "Permission denied for this user"),
        ("content", .obj
          [ ("application/json", .obj
              [ ("schema", .obj [("$ref", .str "#/components/schemas/Error")]) ]) ]) ]),
    ("404", .obj
      [ ("description", .str "One of the specified resources could not be found"),
        ("content", .obj
          [ ("application/json", .obj
              [ ("schema", .obj [("$ref", .str "#/components/schemas/Error")]) ]) ]) ]) ]

/-- Models `DEFAULT_SPEC['components']['schemas']` from `defaults.py`. -/
def defaultSchemas : Obj :=
  [ ("ListMetadata", .obj
      [ ("type", .str "object"),
        ("required", .arr [.str "total_records", .str "page", .str "limit", .str "order", .str "warnings"]),
        ("properties", .obj
          [ ("total_records", .obj
              [ ("type", .str "integer"),
                ("description", .str "The total number of records found for the given search") ]),
            ("page", .obj
              [ ("type", .str "integer"),
                ("description", .str "The value of page that was used for the request") ]),
            ("limit", .obj
              [ ("type", .str "integer"),
                ("description", .str "The value of limit that was used for the request") ]),
            ("order", .obj
              [ ("type", .str "string"),
                ("description", .str "The value of order that was used for the request") ]),
            ("warnings", .obj
              [ ("type", .str "array"),
                ("items", .obj [("type", .str "string")]),
                ("description", .str "A list of warnings generated during execution. Any invalid search filters used will cause a warning to be generated, for example.") ]) ]) ]),
    ("Error", .obj
      [ ("type", .str "object"),
        ("required", .arr [.str "error_code", .str "detail"]),
        ("properties", .obj
          [ ("error_code", .obj
              [ ("type", .str "string"),
                ("description", .str "CloudCIX error code for the error") ]),
            ("detail", .obj
              [ ("type", .str "string"),
                ("description", .str "Verbose version of the error message") ]) ]) ]),
    ("MultiError", .obj
      [ ("description", .str "A map of field names to Error objects representing an error that was found with the data supplied for that field"),
        ("type", .str "object"),
        ("required", .arr [.str "errors"]),
        ("properties", .obj
          [ ("errors", .obj
              [ ("type", .str "object"),
                ("additionalProperties", .obj [("$ref", .str "#/components/schemas/Error")]) ]) ]) ]) ]

/-- Models `DEFAULT_SPEC` from `defaults.py`. -/
def defaultSpec : Obj :=
  [ ("openapi", .str "3.0.0"),
    ("info", .obj [("contact", .obj [("email", .str "developers@cloudcix.com")])]),
    ("tags", .arr []),
    ("security", .arr [.obj [("XAuthToken", .arr [])]]),
    ("paths", .obj []),
    ("components", .obj
      [ ("responses", .obj defaultResponses),
        ("securitySchemes", .obj
          [ ("XAuthToken", .obj
              [ ("type", .str "apiKey"),
                ("in", .str "header"),
                ("name", .str "X-Auth-Token") ]) ]),
        ("schemas", .obj defaultSchemas) ]) ]

/-!  `Command.parse_module`.  The module's `__version__` attribute is modelled
as an `Option String` (`none` covers both a missing attribute and a non-string
value, for which `version.split('.')` raises the `AttributeError` the source
catches); the module docstring is an `Option String` (`ensure_docstring`
records an error and substitutes `''` for `none`).  The returned flag is the
contribution to `self.errors`. -/

/-- Models `Command.ensure_docstring`, returning the trimmed docstring and whether the
missing-docstring error was recorded. -/
def ensureDocstring (doc : Option String) : String × Bool :=
  match doc with
  | none => (docTrim "", true)
  | some d => (docTrim d, false)

/-- Models `Command.parse_module`, acting on the whole spec dictionary. -/
def parseModule (spec : Obj) (moduleName : String) (version : Option String)
    (docstring : Option String) : Obj × Bool :=
  match alookup spec "info" with
  | some (.obj info) =>
    let info := aset info "title" (.str (capitalise moduleName))
    match version with
    | none =>
      -- AttributeError branch: __version__ missing (or not a string)
      (aset spec "info" (.obj info), true)
    | some v =>
      if (pySplitDot v).length ≠ 3 then
        -- ValueError branch: the dot-separated part count is not 3
        (aset spec "info" (.obj info), true)
      else
        let info := aset info "version" (.str v)
        let ed := ensureDocstring docstring
        let info := aset info "description" (.str (pyStrip ed.1))
        let spec := aset spec "info" (.obj info)
        let spec := aset spec "servers"
          (.arr [.obj [("url", .str ("https://" ++ moduleName ++ ".api.cloudcix.com/"))]])
        let spec := aset spec "externalDocs"
          (.obj [ ("description", .str "View Docs in JSON format"),
                  ("url", .str ("https://" ++ moduleName ++ ".api.cloudcix.com/documentation/")) ])
        (spec, ed.2)
  | _ => (spec, true)

/-- Models `info` as read back from the result of `parseModule`. -/
def specInfo (spec : Obj) : Obj :=
  match alookup spec "info" with
  | some (.obj info) => info
  | _ => []

/-!  `Command.install_default_response_data`.  Response codes are keyed by
their decimal string form (YAML integer keys and the force-set integer `401`
key serialise to these strings).  Response values declared in the docstring
are mappings, modelled as `Obj`. -/

/-- Models `DEFAULT_RESPONSE_DESCRIPTIONS.get(code, 'none')`. -/
def defaultResponseDescription (code : String) : String :=
  if code = "200" then "OK"
  else if code = "201" then "Created"
  else if code = "204" then "No Content"
  else if code = "400" then "Input data was invalid"
  else if code = "401" then "No or invalid token provided"
  else if code = "403" then "No permission for user"
  else if code = "404" then "One of the resources specified could not be found"
  else "none"

/-- The `{'application/json': {'schema': {'$ref': ref}}}` content block built
by `install_default_response_data`. -/
def jsonSchemaRef (ref : String) : Value :=
  .obj [("application/json", .obj [("schema", .obj [("$ref", .str ref)])])]

/-- The body of the `for code, details in responses.items()` loop of
`install_default_response_data`, for one response entry. -/
def normalizeResponse (methodName : String) (getIsList : Bool) (modelName : String)
    (code : String) (details : Obj) : Obj :=
  if code.data.headD 'A' = '4' ∧ details.length = 0 then
    [("$ref", .str ("#/components/responses/" ++ code))]
  else
    let d := if (alookup details "description").isNone
      then aset details "description" (.str (defaultResponseDescription code))
      else details
    let d := if (alookup d "content").isNone then
        if code = "201" ∨ (code = "200" ∧ (methodName ≠ "get" ∨ getIsList = false)) then
          aset d "content" (jsonSchemaRef ("#/components/schemas/" ++ modelName ++ "Response"))
        else if code = "200" ∧ methodName = "get" ∧ getIsList = true then
          aset d "content" (jsonSchemaRef ("#/components/schemas/" ++ modelName ++ "List"))
        else d
      else d
    d.filter (fun kv => !kv.2.isNoneStr)

/-- Models `Command.install_default_response_data`: normalize every declared response
and force-set the `401` reference last. -/
def installDefaultResponseData (methodName : String) (getIsList : Bool)
    (modelName : String) (responses : List (String × Obj)) : List (String × Obj) :=
  let rs := responses.map
    (fun kv => (kv.1, normalizeResponse methodName getIsList modelName kv.1 kv.2))
  aset rs "401" [("$ref", .str "#/components/responses/401")]

/-!  `Command.parse_patch_method`.  The path entry `self.spec['paths'][self.url]`
is the verb → operation-object mapping `urlSpec`; `deepcopy` of an immutable
value is the value itself.  An unhandled `TypeError` (`PUT` data that is not a
mapping, or a `description` that is not a string, under `+=`) is a distinct
outcome. -/

/-- The fixed sentence `parse_patch_method` appends to the PUT description. -/
def patchDescriptionSuffix : String :=
  "\n\nThe difference between `PUT` and `PATCH` is that you do not have to send all of the record\x27s data in order to update it. Therefore, treat all of the Update schema as optional."

/-- Outcome of `parse_patch_method`: the updated path entry plus the error
flag, or an unhandled `TypeError`. -/
inductive PatchResult where
  | ok (urlSpec : List (String × Value)) (errors : Bool)
  | typeError

/-- Models `Command.parse_patch_method` on the current path entry. -/
def parsePatchMethod (urlSpec : Obj) : PatchResult :=
  match alookup urlSpec "put" with
  | none => .ok urlSpec true
  | some putSpec =>
    match putSpec with
    | .obj putObj =>
      -- url_spec['patch'] = deepcopy(put_spec) happens before the try block
      match alookup putObj "description" with
      | some (.str desc) =>
        .ok (aset urlSpec "patch"
          (.obj (aset putObj "description" (.str (desc ++ patchDescriptionSuffix))))) false
      | some _ => .typeError
      | none => .ok (aset urlSpec "patch" (.obj putObj)) true
    | _ => .typeError

/-!  `Command.get_url` and `Command.parse_path_params`.  The two regular
expressions are `(\<[a-z]+:([a-z_]+)\>)` (Django placeholders) and
`{([a-z_]+)}` (OpenAPI placeholders); `findall` plus per-match `str.replace`
is a left-to-right rewrite of every `<type:name>` occurrence. -/

/-- Models `[a-z]`. -/
def isLowerAlpha (c : Char) : Bool := 'a' ≤ c ∧ c ≤ 'z'

/-- Models `[a-z_]`. -/
def isNameChar (c : Char) : Bool := isLowerAlpha c ∨ c = '_'

/-- After a `<`, parse `type:name>` (`[a-z]+` then `:` then `[a-z_]+` then
`>`), returning the captured name and the rest of the input. -/
def parseDjangoParam (s : List Char) : Option (List Char × List Char) :=
  let typ := s.takeWhile isLowerAlpha
  let rest1 := s.dropWhile isLowerAlpha
  if typ.isEmpty then none
  else match rest1 with
    | ':' :: rest2 =>
      let name := rest2.takeWhile isNameChar
      let rest3 := rest2.dropWhile isNameChar
      if name.isEmpty then none
      else match rest3 with
        | '>' :: rest4 => some (name, rest4)
        | _ => none
    | _ => none

theorem parseDjangoParam_length {s name rest : List Char}
    (h : parseDjangoParam s = some (name, rest)) : rest.length < s.length := by
  unfold parseDjangoParam at h
  by_cases h1 : (s.takeWhile isLowerAlpha).isEmpty
  · simp [h1] at h
  · simp only [h1, if_false, Bool.false_eq_true] at h
    cases h2 : s.dropWhile isLowerAlpha with
    | nil => rw [h2] at h; exact absurd h (by simp)
    | cons c rest2 =>
      rw [h2] at h
      by_cases hc : c = ':'
      · subst hc
        simp only at h
        by_cases h3 : (rest2.takeWhile isNameChar).isEmpty
        · simp [h3] at h
        · simp only [h3, if_false, Bool.false_eq_true] at h
          cases h4 : rest2.dropWhile isNameChar with
          | nil => rw [h4] at h; exact absurd h (by simp)
          | cons d rest4 =>
            rw [h4] at h
            by_cases hd : d = '>'
            · subst hd
              simp only [Option.some.injEq, Prod.mk.injEq] at h
              have hr : rest4 = rest := h.2
              subst hr
              have l4 : rest4.length < rest2.length := by
                have := (rest2.dropWhile_sublist isNameChar).length_le
                rw [h4] at this; simp at this; omega
              have l2 : rest2.length < s.length := by
                have := (s.dropWhile_sublist isLowerAlpha).length_le
                rw [h2] at this; simp at this; omega
              omega
            · cases d <;> simp_all
      · cases c <;> simp_all

/-- The placeholder-rewriting loop of `get_url`: every `<type:name>` becomes
`{name}`.  Structural recursion on a fuel that starts at the input length;
every step consumes at least one input character, so the fuel never runs out
(`getUrlGo_fuel` below) and the `0` branch is dead. -/
def getUrlGo : Nat → List Char → List Char
  | _, [] => []
  | 0, s => s
  | fuel + 1, c :: rest =>
    if c = '<' then
      match parseDjangoParam rest with
      | some (name, rest') => '{' :: (name ++ '}' :: getUrlGo fuel rest')
      | none => '<' :: getUrlGo fuel rest
    else c :: getUrlGo fuel rest

/-- The rewrite is independent of the fuel once the fuel covers the input
length: the `0` branch of `getUrlGo` is unreachable from `getUrl`. -/
theorem getUrlGo_fuel (f1 : Nat) : ∀ (f2 : Nat) (s : List Char),
    s.length ≤ f1 → s.length ≤ f2 → getUrlGo f1 s = getUrlGo f2 s := by
  induction f1 with
  | zero =>
    intro f2 s h1 _
    have : s = [] := List.length_eq_zero.mp (Nat.le_zero.mp h1)
    subst this
    cases f2 <;> rfl
  | succ f1 ih =>
    intro f2 s h1 h2
    cases s with
    | nil => cases f2 <;> rfl
    | cons c rest =>
      cases f2 with
      | zero => simp at h2
      | succ f2 =>
        simp only [List.length_cons, Nat.succ_le_succ_iff] at h1 h2
        simp only [getUrlGo]
        by_cases hc : c = '<'
        · subst hc
          simp only [if_pos rfl]
          cases hp : parseDjangoParam rest with
          | none => simp only [hp]; rw [ih f2 rest h1 h2]
          | some p =>
            obtain ⟨name, rest'⟩ := p
            have hlt := parseDjangoParam_length hp
            simp only [hp]
            rw [ih f2 rest' (by omega) (by omega)]
            simp
        · simp only [if_neg hc]
          rw [ih f2 rest h1 h2]

/-- Models `Command.get_url`: empty pattern becomes `/`, a leading `/` is
guaranteed, Django placeholders become OpenAPI placeholders. -/
def getUrl (urlPattern : String) : String :=
  if urlPattern.data.isEmpty then "/"
  else
    let s := if urlPattern.data.headD ' ' ≠ '/'
      then '/' :: urlPattern.data else urlPattern.data
    String.mk (getUrlGo s.length s)

/-- After a `{`, parse `name}` (`[a-z_]+` then `}`), returning the captured
name and the rest of the input. -/
def parseDocParam (s : List Char) : Option (String × List Char) :=
  let name := s.takeWhile isNameChar
  if name.isEmpty then none
  else match s.dropWhile isNameChar with
    | '}' :: rest2 => some (String.mk name, rest2)
    | _ => none

theorem parseDocParam_length {s : List Char} {n : String} {rest : List Char}
    (h : parseDocParam s = some (n, rest)) : rest.length < s.length := by
  unfold parseDocParam at h
  by_cases h1 : (s.takeWhile isNameChar).isEmpty
  · simp [h1] at h
  · simp only [h1, if_false, Bool.false_eq_true] at h
    cases h2 : s.dropWhile isNameChar with
    | nil => rw [h2] at h; exact absurd h (by simp)
    | cons c rest2 =>
      rw [h2] at h
      by_cases hc : c = '}'
      · subst hc
        simp only [Option.some.injEq, Prod.mk.injEq] at h
        have hr : rest2 = rest := h.2
        subst hr
        have hle := (s.dropWhile_sublist isNameChar).length_le
        rw [h2] at hle
        simp at hle
        omega
      · cases c <;> simp_all

/-- Models `DOC_PATH_PARAM_PATTERN.findall`: all `{name}` captures, left to right,
non-overlapping, advancing one character on a failed match.  Fuel recursion
as in `getUrlGo`; the `0` branch is dead (`findDocParamsGo_fuel`). -/
def findDocParamsGo : Nat → List Char → List String
  | _, [] => []
  | 0, _ => []
  | fuel + 1, c :: rest =>
    if c = '{' then
      match parseDocParam rest with
      | some (name, rest2) => name :: findDocParamsGo fuel rest2
      | none => findDocParamsGo fuel rest
    else findDocParamsGo fuel rest

/-- The placeholder scan is independent of the fuel once the fuel covers the
input length. -/
theorem findDocParamsGo_fuel (f1 : Nat) : ∀ (f2 : Nat) (s : List Char),
    s.length ≤ f1 → s.length ≤ f2 → findDocParamsGo f1 s = findDocParamsGo f2 s := by
  induction f1 with
  | zero =>
    intro f2 s h1 _
    have : s = [] := List.length_eq_zero.mp (Nat.le_zero.mp h1)
    subst this
    cases f2 <;> rfl
  | succ f1 ih =>
    intro f2 s h1 h2
    cases s with
    | nil => cases f2 <;> rfl
    | cons c rest =>
      cases f2 with
      | zero => simp at h2
      | succ f2 =>
        simp only [List.length_cons, Nat.succ_le_succ_iff] at h1 h2
        simp only [findDocParamsGo]
        by_cases hc : c = '{'
        · subst hc
          simp only [if_pos rfl]
          cases hp : parseDocParam rest with
          | none => simp only [hp]; rw [ih f2 rest h1 h2]
          | some p =>
            obtain ⟨name, rest2⟩ := p
            have hlt := parseDocParam_length hp
            simp only [hp]
            rw [ih f2 rest2 (by omega) (by omega)]
            simp
        · simp only [if_neg hc]
          rw [ih f2 rest h1 h2]

/-- All `{name}` placeholders of a rewritten URL. -/
def findDocParams (url : String) : List String :=
  findDocParamsGo url.data.length url.data

/-- The parameter object built for one matched path parameter: the fixed
`{in, required, name, schema.type}` dictionary with the remaining declared
keys merged in by `dict.update`. -/
def mkPathParam (name : String) (ptype : Value) (rest : Obj) : Value :=
  .obj (aupdate
    [ ("in", .str "path"), ("required", .bool true), ("name", .str name),
      ("schema", .obj [("type", ptype)]) ] rest)

/-- The `for param in params` loop of `parse_path_params`: returns the built
parameter objects, what remains of the declared `path_params`, and the error
flag. -/
def parsePathParamsGo :
    List String → List (String × Obj) → List Value → Bool →
    List Value × List (String × Obj) × Bool
  | [], remaining, acc, errs => (acc, remaining, errs)
  | p :: ps, remaining, acc, errs =>
    match apop remaining p with
    | none => parsePathParamsGo ps remaining acc true
    | some (details, remaining') =>
      match apop details "type" with
      | none => parsePathParamsGo ps remaining' acc true
      | some (ptype, details') =>
        parsePathParamsGo ps remaining' (acc ++ [mkPathParam p ptype details']) errs

/-- Models `Command.parse_path_params`: the parameter objects appended to the
operation's `parameters` list, plus the error flag (covering both a failed
placeholder reconciliation and leftover declared parameters). -/
def parsePathParams (url : String) (pathParams : List (String × Obj)) :
    List Value × Bool :=
  let r := parsePathParamsGo (findDocParams url) pathParams [] false
  (r.1, r.2.2 || !r.2.1.isEmpty)

/-- A declared `path_params` entry that `parse_path_params` reports as an
error for placeholder `p`: missing entirely, or lacking a `type` key. -/
def badPathParamDecl (pp : List (String × Obj)) (p : String) : Prop :=
  alookup pp p = none ∨ ∃ d, alookup pp p = some d ∧ alookup d "type" = none

/-- The parameter object `parse_path_params` emits for placeholder `p` with
declaration `d` (meaningful when `d` carries a `type`). -/
def declPathParam (pp : List (String × Obj)) (p : String) : Value :=
  match apop ((alookup pp p).getD []) "type" with
  | some (t, d') => mkPathParam p t d'
  | none => .null

/-!  `Command.parse_input_schema`.  Each field of the controller's
`Meta.validation_order` resolves to `none` (no `validate_<field>` attribute)
or to the outcome of `yaml.safe_load` on its docstring: a scanner error, or a
parsed value.  `field_data.get('generative', False)` sits outside every `try`
block, so a parsed value that is not a mapping (no `.get` attribute) raises an
uncaught `AttributeError` that kills the whole run — modelled as `crash`.
(The `except AttributeError` around `field_data.pop('required', True)` is
unreachable: any value with `.get` also has `.pop`.)  A missing-required-keys
field without `$ref` triggers `return`, abandoning the declaration — modelled
as `aborted`.  The missing-docstring case of `ensure_docstring` yields `''`,
which `yaml.safe_load` turns into `None` — a non-mapping, hence also `crash`. -/

/-- Outcome of `yaml.safe_load` on an attached docstring. -/
inductive YamlDoc where
  | malformed
  | value (v : Value)

/-- Outcome of `parse_input_schema`: an uncaught `AttributeError` at the named
field, an early `return` (declaration abandoned, nothing registered, error
flag set), or a registered `{Entity}{Create|Update}` schema plus error flag. -/
inductive InputSchemaResult where
  | crash (field : String)
  | aborted
  | registered (schema : Value) (errors : Bool)

/-- Partial outcome of the field loop of `parse_input_schema`. -/
inductive FieldLoopResult where
  | crash (field : String)
  | aborted
  | finished (required : List String) (properties : Obj) (errors : Bool)

/-- The `for field in self.controller_class.Meta.validation_order` loop of
`parse_input_schema`. -/
def parseInputSchemaGo (methodName : String) :
    List (String × Option YamlDoc) → List String → Obj → Bool → FieldLoopResult
  | [], required, props, errs => .finished required props errs
  | (field, v) :: rest, required, props, errs =>
    match v with
    | none =>
      -- validate_<field> not found: error, continue
      parseInputSchemaGo methodName rest required props true
    | some .malformed =>
      -- yaml.scanner.ScannerError: error, continue
      parseInputSchemaGo methodName rest required props true
    | some (.value fd) =>
      match fd with
      | .obj o =>
        if pyTruthy ((alookup o "generative").getD (.bool false)) then
          -- generative fields are skipped entirely
          parseInputSchemaGo methodName rest required props errs
        else
          let popped := match apop o "required" with
            | some p => p
            | none => (.bool true, o)
          let required' :=
            if pyTruthy popped.1 ∧ methodName ≠ "patch"
            then required ++ [field] else required
          if ((alookup popped.2 "description").isNone ∨ (alookup popped.2 "type").isNone) ∧
              (alookup popped.2 "$ref").isNone then
            -- missing required keys and no $ref: error, return
            .aborted
          else
            parseInputSchemaGo methodName rest required'
              (aset props field (.obj popped.2)) errs
      | _ =>
        -- field_data.get on a non-mapping: uncaught AttributeError
        .crash field

/-- Models `Command.parse_input_schema` (the schema construction part; the
`requestBody` reference is installed before the loop regardless). -/
def parseInputSchema (methodName : String)
    (fields : List (String × Option YamlDoc)) : InputSchemaResult :=
  match parseInputSchemaGo methodName fields [] [] false with
  | .crash f => .crash f
  | .aborted => .aborted
  | .finished required props errs =>
    if required.isEmpty then
      .registered (.obj [("type", .str "object"), ("properties", .obj props)]) errs
    else
      .registered (.obj [("type", .str "object"), ("required", .arr (required.map .str)),
        ("properties", .obj props)]) errs

/-!  `Command.parse_serializer` / `Command.parse_sub_serializer`.  A serializer
is reflected on through its class `__name__`, its serpy `_field_map` (the
implemented field names), and the `yaml.safe_load` outcome of its docstring.
The serializer module namespace maps attribute names (e.g.
`WidgetSerializer`) to serializer classes.  `parse_sub_serializer` recurses
into `parse_serializer`; the recursion is modelled with a step function
`parseSerializerStep` over an abstract recursive call, tied with fuel in
`parseSerializer` (Python has no fuel and can recurse without bound — an
`outOfFuel` result for every fuel witnesses that divergence).  Python's `in`
and subscript on arbitrary YAML values can raise `TypeError`, modelled as
`crash`. -/

/-- A serpy serializer as `parse_serializer` sees it. -/
structure Serializer where
  name : String
  fieldMap : List String
  doc : YamlDoc

/-- The serializer module namespace: attribute name → serializer class. -/
abbrev SerializerEnv := List (String × Serializer)

/-- Outcome of `parse_serializer`: fuel exhaustion (unbounded recursion in
Python), an uncaught `TypeError`/`AttributeError`, or the updated components
schemas plus error flag. -/
inductive SerResult where
  | outOfFuel
  | crash
  | ok (schemas : Obj) (errors : Bool)

/-- Outcome of the `_field_map` loop. -/
inductive SerFieldsResult where
  | outOfFuel
  | crash
  | ok (docFields : List String) (schemas : Obj) (errors : Bool)

/-- Python's `needle in v` (`none` = uncaught `TypeError`). -/
def pyIn (needle : String) : Value → Option Bool
  | .obj o => some (alookup o needle).isSome
  | .str s => some (pyContains s needle)
  | .arr l => some (l.any (fun x => x.isStrEq needle))
  | _ => none

/-- Python's `v[k]` for a string key (`none` = uncaught error). -/
def pyGetItemStr : Value → String → Option Value
  | .obj o, k => alookup o k
  | _, _ => none

/-- Models `ref.split('/')[-1]`. -/
def lastSlashComponent (s : String) : String :=
  String.mk ((s.data.reverse.takeWhile (fun c => c ≠ '/')).reverse)

/-- The three schema shapes `parse_serializer` registers on success:
`<Model>`, `<Model>Response` and `<Model>List`. -/
def registerEntitySchemas (modelName : String) (required : List String)
    (items : Obj) (schemas : Obj) : Obj :=
  let s1 := aset schemas modelName (.obj
    [ ("type", .str "object"), ("required", .arr (required.map .str)),
      ("properties", .obj items) ])
  let s2 := aset s1 (modelName ++ "Response") (.obj
    [ ("type", .str "object"),
      ("properties", .obj [("content", .obj
        [("$ref", .str ("#/components/schemas/" ++ modelName))])]) ])
  aset s2 (modelName ++ "List") (.obj
    [ ("type", .str "object"),
      ("properties", .obj
        [ ("content", .obj [("type", .str "array"),
            ("items", .obj [("$ref", .str ("#/components/schemas/" ++ modelName))])]),
          ("_metadata", .obj [("$ref", .str "#/components/schemas/ListMetadata")]) ]) ])

/-- The type of the recursive call `parse_sub_serializer` makes back into
`parse_serializer`. -/
abbrev SerRecur := SerializerEnv → Option Serializer → String → Obj → Bool → SerResult

/-- Models `Command.parse_sub_serializer`: skip when the *serializer class name*
equals the referenced model name (note: for the conventional
`<Model>Serializer` naming these never coincide), else parse the referenced
serializer with the model name temporarily switched. -/
def parseSubSerializerAux (recur : SerRecur) (env : SerializerEnv)
    (serName ref : String) (schemas : Obj) (errors : Bool) : SerResult :=
  let subName := lastSlashComponent ref
  if serName = subName then .ok schemas errors
  else recur env (alookup env (subName ++ "Serializer")) subName schemas errors

/-- The `for field_name in serializer._field_map` loop of `parse_serializer`. -/
def parseSerializerFieldsAux (recur : SerRecur) (env : SerializerEnv)
    (serName : String) (items : Obj) :
    List String → List String → Obj → Bool → SerFieldsResult
  | [], docFields, schemas, errors => .ok docFields schemas errors
  | fieldName :: rest, docFields, schemas, errors =>
    if pyContains fieldName "old_" then
      -- backwards-compatibility fields are skipped
      parseSerializerFieldsAux recur env serName items rest docFields schemas errors
    else if ¬ docFields.contains fieldName then
      -- implemented but not documented: error, continue
      parseSerializerFieldsAux recur env serName items rest docFields schemas true
    else
      let docFields' := docFields.erase fieldName
      let fieldItems := (alookup items fieldName).getD .null
      match pyIn "$ref" fieldItems with
      | none => .crash
      | some hasRef =>
        if hasRef then
          match pyGetItemStr fieldItems "$ref" with
          | some (.str ref) =>
            match parseSubSerializerAux recur env serName ref schemas errors with
            | .outOfFuel => .outOfFuel
            | .crash => .crash
            | .ok schemas' errors' =>
              parseSerializerFieldsAux recur env serName items rest docFields' schemas' errors'
          | _ => .crash
        else
          match pyIn "description" fieldItems, pyIn "type" fieldItems with
          | some hasDesc, some hasType =>
            if ¬ hasDesc ∨ ¬ hasType then
              -- missing description/type: error, continue
              parseSerializerFieldsAux recur env serName items rest docFields' schemas true
            else
              match pyGetItemStr fieldItems "type" with
              | none => .crash
              | some tv =>
                if tv.isStrEq "array" then
                  match pyIn "items" fieldItems with
                  | none => .crash
                  | some hasItems =>
                    if ¬ hasItems then
                      -- array without items: error, continue
                      parseSerializerFieldsAux recur env serName items rest docFields' schemas true
                    else
                      match pyGetItemStr fieldItems "items" with
                      | none => .crash
                      | some iv =>
                        match pyIn "$ref" iv with
                        | none => .crash
                        | some hasIRef =>
                          if hasIRef then
                            match pyGetItemStr iv "$ref" with
                            | some (.str ref) =>
                              match parseSubSerializerAux recur env serName ref schemas errors with
                              | .outOfFuel => .outOfFuel
                              | .crash => .crash
                              | .ok schemas' errors' =>
                                parseSerializerFieldsAux recur env serName items rest
                                  docFields' schemas' errors'
                            | _ => .crash
                          else
                            parseSerializerFieldsAux recur env serName items rest
                              docFields' schemas errors
                else
                  parseSerializerFieldsAux recur env serName items rest docFields' schemas errors
          | _, _ => .crash

/-- One level of `Command.parse_serializer` over an abstract recursive call. -/
def parseSerializerStep (recur : SerRecur) (env : SerializerEnv)
    (ser : Option Serializer) (modelName : String) (schemas : Obj) (errors : Bool) :
    SerResult :=
  match ser with
  | none => .ok schemas errors
  | some s =>
    if (alookup schemas modelName).isSome then
      -- already parsed: skip
      .ok schemas errors
    else
      match s.doc with
      | .malformed => .ok schemas true
      | .value items =>
        match items with
        | .obj itemsObj =>
          match parseSerializerFieldsAux recur env s.name itemsObj s.fieldMap
              (akeys itemsObj) schemas errors with
          | .outOfFuel => .outOfFuel
          | .crash => .crash
          | .ok docFields schemas' errors' =>
            if ¬ docFields.isEmpty then
              -- documented but not implemented: error, no registration
              .ok schemas' true
            else
              .ok (registerEntitySchemas modelName (akeys itemsObj) itemsObj schemas') errors'
        | _ => .ok schemas true

/-- Models `Command.parse_serializer`, tied with fuel. -/
def parseSerializer : Nat → SerRecur
  | 0 => fun _ _ _ _ _ => .outOfFuel
  | fuel + 1 => parseSerializerStep (parseSerializer fuel)

/-- A conventionally named serializer whose docstring field `child` references
the serializer's own model: the situation `parse_sub_serializer`'s guard is
documented to catch. -/
def selfRefSerializer : Serializer :=
  { name := "WidgetSerializer",
    fieldMap := ["child"],
    doc := .value (.obj
      [("child", .obj [("$ref", .str "#/components/schemas/Widget")])]) }

/-- A serializer environment holding only `selfRefSerializer`. -/
def selfRefEnv : SerializerEnv := [("WidgetSerializer", selfRefSerializer)]

/-- A field documentation entry that needs no recursion and passes the
per-field checks: a mapping with no `$ref`, with a `description`, and with a
non-`array` `type`. -/
def simpleFieldDoc : Value → Bool
  | .obj o =>
    (alookup o "$ref").isNone && (alookup o "description").isSome &&
    (match alookup o "type" with
     | some t => !t.isStrEq "array"
     | none => false)
  | _ => false

/-- The tracked documentation-key set left after the `_field_map` loop: each
non-`old_` implemented field removes its key once. -/
def flatErase (fields docFields : List String) : List String :=
  fields.foldl (fun df fl => if pyContains fl "old_" then df else df.erase fl) docFields

/-- The error flag after the `_field_map` loop when every documentation entry
is a `simpleFieldDoc` (only the implemented-but-not-documented check can
fire). -/
def flatLoopErr : List String → List String → Bool → Bool
  | [], _, errs => errs
  | fl :: rest, docFields, errs =>
    if pyContains fl "old_" then flatLoopErr rest docFields errs
    else if docFields.contains fl then flatLoopErr rest (docFields.erase fl) errs
    else flatLoopErr rest docFields true

/-- The serializer of the C1 counterexample: fields `a` and `b` implemented,
only `a` documented. -/
def c1MismatchSerializer : Serializer :=
  { name := "WidgetSerializer",
    fieldMap := ["a", "b"],
    doc := .value (.obj
      [("a", .obj [("description", .str "The a"), ("type", .str "string")])]) }

/-!  General association-list lemmas shared by the claim proofs. -/

theorem alookup_aset_self {β : Type} (d : List (String × β)) (k : String) (v : β) :
    alookup (aset d k v) k = some v := by
  induction d with
  | nil => simp [aset, alookup]
  | cons kv rest ih =>
    obtain ⟨k', v'⟩ := kv
    by_cases h : k' = k <;> simp [aset, alookup, h, ih]

theorem alookup_aset_ne {β : Type} (d : List (String × β)) (k k' : String) (v : β)
    (h : k ≠ k') : alookup (aset d k v) k' = alookup d k' := by
  induction d with
  | nil => simp [aset, alookup, h]
  | cons kv rest ih =>
    obtain ⟨k₀, v₀⟩ := kv
    by_cases h₀ : k₀ = k
    · subst h₀; simp [aset, alookup, h, ih]
    · simp [aset, alookup, h₀, ih]

theorem alookup_map_keyed {β γ : Type} (d : List (String × β)) (f : String → β → γ)
    (k : String) :
    alookup (d.map (fun kv => (kv.1, f kv.1 kv.2))) k = (alookup d k).map (f k) := by
  induction d with
  | nil => simp [alookup]
  | cons kv rest ih =>
    obtain ⟨k₀, v₀⟩ := kv
    by_cases h : k₀ = k
    · subst h; simp [alookup]
    · simp [alookup, h, ih]

theorem apop_some_lookup {β : Type} {d : List (String × β)} {k : String} {v : β}
    {d' : List (String × β)} (h : apop d k = some (v, d')) : alookup d k = some v := by
  induction d generalizing v d' with
  | nil => simp [apop] at h
  | cons kv rest ih =>
    obtain ⟨k₀, v₀⟩ := kv
    by_cases h₀ : k₀ = k
    · simp only [apop, if_pos h₀, Option.some.injEq, Prod.mk.injEq] at h
      simp [alookup, h₀, h.1]
    · simp only [apop, if_neg h₀, Option.map_eq_some'] at h
      obtain ⟨⟨pv, pd⟩, hp, hps⟩ := h
      simp only [Prod.mk.injEq] at hps
      simp only [alookup, if_neg h₀]
      rw [ih hp, hps.1]

theorem apop_none_iff {β : Type} {d : List (String × β)} {k : String} :
    apop d k = none ↔ alookup d k = none := by
  induction d with
  | nil => simp [apop, alookup]
  | cons kv rest ih =>
    obtain ⟨k₀, v₀⟩ := kv
    by_cases h₀ : k₀ = k <;> simp [apop, alookup, h₀, ih]

theorem apop_lookup_ne {β : Type} {d d' : List (String × β)} {k : String} {v : β}
    (h : apop d k = some (v, d')) (k' : String) (hk : k' ≠ k) :
    alookup d' k' = alookup d k' := by
  induction d generalizing v d' with
  | nil => simp [apop] at h
  | cons kv rest ih =>
    obtain ⟨k₀, v₀⟩ := kv
    by_cases h₀ : k₀ = k
    · simp only [apop, if_pos h₀, Option.some.injEq, Prod.mk.injEq] at h
      have hne : k₀ ≠ k' := by rw [h₀]; exact fun hh => hk hh.symm
      rw [← h.2]
      simp [alookup, hne]
    · simp only [apop, if_neg h₀, Option.map_eq_some'] at h
      obtain ⟨⟨pv, pd⟩, hp, hps⟩ := h
      simp only [Prod.mk.injEq] at hps
      rw [← hps.2]
      by_cases hkk : k₀ = k'
      · simp [alookup, hkk]
      · simp only [alookup, if_neg hkk]
        exact ih hp

theorem alookup_isSome_of_mem {β : Type} {d : List (String × β)} {k : String}
    (h : k ∈ akeys d) : (alookup d k).isSome := by
  induction d with
  | nil => simp [akeys] at h
  | cons kv rest ih =>
    obtain ⟨k₀, v₀⟩ := kv
    by_cases h₀ : k₀ = k
    · simp [alookup, h₀]
    · simp only [akeys, List.map_cons, List.mem_cons] at h
      rcases h with h | h
      · exact absurd h.symm h₀
      · simp only [alookup, if_neg h₀]
        exact ih h

/-- Once the error flag is set, the `parse_path_params` loop keeps it set. -/
theorem parsePathParamsGo_sticky (ps : List String) :
    ∀ pp acc, (parsePathParamsGo ps pp acc true).2.2 = true := by
  induction ps with
  | nil => intro pp acc; rfl
  | cons p₀ ps ih =>
    intro pp acc
    simp only [parsePathParamsGo]
    split
    · exact ih _ _
    · split
      · exact ih _ _
      · exact ih _ _

/-- A placeholder whose declaration is missing or lacks a `type` makes the
`parse_path_params` loop record an error. -/
theorem parsePathParamsGo_bad (ps : List String) :
    ∀ pp acc errs, (∃ p ∈ ps, badPathParamDecl pp p) →
    (parsePathParamsGo ps pp acc errs).2.2 = true := by
  induction ps with
  | nil =>
    rintro pp acc errs ⟨p, hp, _⟩
    simp at hp
  | cons p₀ ps ih =>
    rintro pp acc errs ⟨p, hp, hbad⟩
    simp only [parsePathParamsGo]
    split
    · exact parsePathParamsGo_sticky ps pp acc
    · rename_i details rem hpop
      split
      · exact parsePathParamsGo_sticky ps rem acc
      · rename_i t d' htype
        have hfull : alookup pp p₀ = some details := apop_some_lookup hpop
        have htfull : alookup details "type" = some t := apop_some_lookup htype
        have hnotbad : ¬ badPathParamDecl pp p₀ := by
          rintro (hmiss | ⟨d, hd, hdt⟩)
          · rw [hfull] at hmiss; cases hmiss
          · rw [hfull] at hd
            injection hd with hd
            rw [hd] at htfull
            rw [hdt] at htfull
            cases htfull
        rcases List.mem_cons.mp hp with rfl | hps
        · exact absurd hbad hnotbad
        · by_cases hpp : p = p₀
          · subst hpp; exact absurd hbad hnotbad
          · refine ih rem _ errs ⟨p, hps, ?_⟩
            unfold badPathParamDecl at hbad ⊢
            rw [apop_lookup_ne hpop p hpp]
            exact hbad

/-- Keys that are not placeholders survive the `parse_path_params` loop into
the leftover `path_params`. -/
theorem parsePathParamsGo_leftover (ps : List String) :
    ∀ pp acc errs k, k ∉ ps →
    alookup (parsePathParamsGo ps pp acc errs).2.1 k = alookup pp k := by
  induction ps with
  | nil => intros; rfl
  | cons p₀ ps ih =>
    intro pp acc errs k hk
    have hk₀ : k ≠ p₀ := fun h => hk (h ▸ List.mem_cons_self _ _)
    have hks : k ∉ ps := fun h => hk (List.mem_cons_of_mem _ h)
    simp only [parsePathParamsGo]
    split
    · exact ih pp acc true k hks
    · rename_i details rem hpop
      split
      · rw [ih rem acc true k hks]
        exact apop_lookup_ne hpop k hk₀
      · rename_i t d' htype
        rw [ih rem _ errs k hks]
        exact apop_lookup_ne hpop k hk₀

/-- On a strict bidirectionally-matched declaration set, the
`parse_path_params` loop emits exactly one parameter object per placeholder,
in placeholder order, and touches the error flag only as inherited. -/
theorem parsePathParamsGo_good (ps : List String) :
    ∀ pp acc errs, ps.Nodup →
    (∀ p ∈ ps, ∃ d, alookup pp p = some d ∧ (alookup d "type").isSome) →
    (parsePathParamsGo ps pp acc errs).1 = acc ++ ps.map (declPathParam pp) ∧
    (parsePathParamsGo ps pp acc errs).2.2 = errs := by
  induction ps with
  | nil => intros; simp [parsePathParamsGo]
  | cons p₀ ps ih =>
    intro pp acc errs hnd hgood
    obtain ⟨d, hd, hdt⟩ := hgood p₀ (List.mem_cons_self _ _)
    simp only [parsePathParamsGo]
    split
    · rename_i hpop
      rw [apop_none_iff, hd] at hpop
      cases hpop
    · rename_i d₀ rem hpop
      have hl : alookup pp p₀ = some d₀ := apop_some_lookup hpop
      rw [hd] at hl
      injection hl with hl
      subst hl
      split
      · rename_i htype
        rw [apop_none_iff] at htype
        rw [htype] at hdt
        cases hdt
      · rename_i t d' htype
        have hp₀ : p₀ ∉ ps := (List.nodup_cons.mp hnd).1
        have hrem : ∀ p ∈ ps, alookup rem p = alookup pp p := by
          intro p hps
          exact apop_lookup_ne hpop p (fun hh => hp₀ (hh ▸ hps))
        have ihres := ih rem (acc ++ [mkPathParam p₀ t d']) errs
          (List.nodup_cons.mp hnd).2
          (fun p hps => by rw [hrem p hps]; exact hgood p (List.mem_cons_of_mem _ hps))
        refine ⟨?_, ihres.2⟩
        rw [ihres.1]
        have hhead : declPathParam pp p₀ = mkPathParam p₀ t d' := by
          unfold declPathParam
          rw [hd]
          simp [htype]
        have htail : ps.map (declPathParam rem) = ps.map (declPathParam pp) := by
          apply List.map_congr_left
          intro p hps
          unfold declPathParam
          rw [hrem p hps]
        rw [htail, List.map_cons, hhead, List.append_assoc]
        rfl

/-- C4: a PATCH operation is the PUT operation object with the fixed sentence
appended to its `description` and nothing else changed; a missing PUT
operation, or a PUT operation without `description`, records a reportable
error (in the latter case the bare copy of PUT is still emitted as PATCH). -/
theorem c4_patch_clones_put :
    (∀ (urlSpec : Obj) (putObj : Obj) (desc : String),
      alookup urlSpec "put" = some (.obj putObj) →
      alookup putObj "description" = some (.str desc) →
      parsePatchMethod urlSpec =
        .ok (aset urlSpec "patch"
          (.obj (aset putObj "description" (.str (desc ++ patchDescriptionSuffix))))) false) ∧
    (∀ urlSpec : Obj, alookup urlSpec "put" = none →
      parsePatchMethod urlSpec = .ok urlSpec true) ∧
    (∀ (urlSpec : Obj) (putObj : Obj),
      alookup urlSpec "put" = some (.obj putObj) →
      alookup putObj "description" = none →
      parsePatchMethod urlSpec = .ok (aset urlSpec "patch" (.obj putObj)) true) := by
  refine ⟨?_, ?_, ?_⟩
  · intro urlSpec putObj desc h1 h2
    simp [parsePatchMethod, h1, h2]
  · intro urlSpec h1
    simp [parsePatchMethod, h1]
  · intro urlSpec putObj h1 h2
    simp [parsePatchMethod, h1, h2]

/-- C4 witness: a concrete PUT operation with tags and a description is cloned
into PATCH with only the description extended. -/
theorem c4_patch_clones_put_witness :
    parsePatchMethod
        [("put", .obj [("tags", .arr [.str "Widget"]), ("description", .str "Update a Widget")])] =
      .ok (aset
        [("put", .obj [("tags", .arr [.str "Widget"]), ("description", .str "Update a Widget")])]
        "patch"
        (.obj (aset [("tags", .arr [.str "Widget"]), ("description", .str "Update a Widget")]
          "description" (.str ("Update a Widget" ++ patchDescriptionSuffix))))) false := by
  exact c4_patch_clones_put.1 _ _ _ rfl rfl

/-- C5: path-parameter reconciliation.  The route `/widget/<int:id>` rewrites
to `/widget/{id}` and, with `path_params: {id: {type: integer}}` declared, the
parameter list is exactly
`[{in: path, required: true, name: id, schema: {type: integer}}]` with no
error.  In general a placeholder whose declaration is missing or has no
`type` records an error (and, per `parsePathParamsGo_good`, contributes no
parameter), a declared parameter absent from the path records an error, and
on a strict bidirectional match the emitted list is exactly one object per
placeholder of the stated shape with the remaining declared keys merged in. -/
theorem c5_path_param_reconciliation :
    (getUrl "/widget/<int:id>" = "/widget/{id}" ∧
     parsePathParams "/widget/{id}" [("id", [("type", Value.str "integer")])] =
       ([Value.obj [("in", .str "path"), ("required", .bool true), ("name", .str "id"),
          ("schema", .obj [("type", .str "integer")])]], false)) ∧
    (∀ url pp, (∃ p ∈ findDocParams url, badPathParamDecl pp p) →
      (parsePathParams url pp).2 = true) ∧
    (∀ url pp k, k ∈ akeys pp → k ∉ findDocParams url →
      (parsePathParams url pp).2 = true) ∧
    (∀ url pp, (findDocParams url).Nodup →
      (∀ p ∈ findDocParams url, ∃ d, alookup pp p = some d ∧ (alookup d "type").isSome) →
      (parsePathParams url pp).1 = (findDocParams url).map (declPathParam pp)) := by
  refine ⟨⟨rfl, rfl⟩, ?_, ?_, ?_⟩
  · intro url pp hbad
    show ((parsePathParamsGo (findDocParams url) pp [] false).2.2
      || !(parsePathParamsGo (findDocParams url) pp [] false).2.1.isEmpty) = true
    rw [parsePathParamsGo_bad (findDocParams url) pp [] false hbad]
    rfl
  · intro url pp k hmem hnot
    show ((parsePathParamsGo (findDocParams url) pp [] false).2.2
      || !(parsePathParamsGo (findDocParams url) pp [] false).2.1.isEmpty) = true
    have hsome := alookup_isSome_of_mem hmem
    have hleft := parsePathParamsGo_leftover (findDocParams url) pp [] false k hnot
    cases hl : (parsePathParamsGo (findDocParams url) pp [] false).2.1 with
    | nil =>
      rw [hl] at hleft
      rw [← hleft] at hsome
      simp [alookup] at hsome
    | cons kv rest =>
      simp [hl]
  · intro url pp hnd hgood
    show (parsePathParamsGo (findDocParams url) pp [] false).1 = _
    rw [(parsePathParamsGo_good (findDocParams url) pp [] false hnd hgood).1]
    rfl

/-- C5 witness: a placeholder with no declaration errors, a declared parameter
not present in the path errors, and the exact-shape clause applied to the
widget route. -/
theorem c5_path_param_reconciliation_witness :
    (parsePathParams "/a/{x}" []).2 = true ∧
    (parsePathParams "/a" [("x", [])]).2 = true ∧
    (parsePathParams "/widget/{id}" [("id", [("type", Value.str "integer")])]).1 =
      (findDocParams "/widget/{id}").map
        (declPathParam [("id", [("type", Value.str "integer")])]) := by
  refine ⟨?_, ?_, ?_⟩
  · exact c5_path_param_reconciliation.2.1 "/a/{x}" []
      ⟨"x", by decide, Or.inl rfl⟩
  · exact c5_path_param_reconciliation.2.2.1 "/a" [("x", [])] "x" (by decide) (by decide)
  · refine c5_path_param_reconciliation.2.2.2 "/widget/{id}" _ (by decide) ?_
    intro p hp
    have : p = "id" := by
      have : findDocParams "/widget/{id}" = ["id"] := by decide
      rw [this] at hp
      simpa using hp
    subst this
    exact ⟨[("type", Value.str "integer")], rfl, rfl⟩

theorem alookup_mem {β : Type} {d : List (String × β)} {k : String} {v : β}
    (h : alookup d k = some v) : (k, v) ∈ d := by
  induction d with
  | nil => simp [alookup] at h
  | cons kv rest ih =>
    obtain ⟨k₀, v₀⟩ := kv
    by_cases h₀ : k₀ = k
    · subst h₀
      simp only [alookup, if_true, reduceIte, Option.some.injEq] at h
      subst h
      exact List.mem_cons_self _ _
    · simp only [alookup, if_neg h₀] at h
      exact List.mem_cons_of_mem _ (ih h)

/-- Once set, the error flag survives the rest of the field loop. -/
theorem flatLoopErr_sticky (fields : List String) :
    ∀ docFields, flatLoopErr fields docFields true = true := by
  induction fields with
  | nil => intro df; rfl
  | cons fl rest ih =>
    intro df
    simp only [flatLoopErr]
    by_cases hold : pyContains fl "old_"
    · simp [hold, ih]
    · by_cases hc : df.contains fl <;> simp [hold, hc, ih]

/-- An implemented non-`old_` field that is not among the documentation keys
forces the error flag. -/
theorem flatLoopErr_missing (keys fields : List String) :
    ∀ docFields errs, (∃ fl ∈ fields, ¬pyContains fl "old_" ∧ fl ∉ keys) →
    (∀ x ∈ docFields, x ∈ keys) →
    flatLoopErr fields docFields errs = true := by
  induction fields with
  | nil =>
    rintro df errs ⟨fl, h, _⟩ _
    simp at h
  | cons f₀ rest ih =>
    rintro df errs ⟨fl, hfl, hnold, hnkeys⟩ hsub
    simp only [flatLoopErr]
    by_cases hold : pyContains f₀ "old_"
    · have hmem : fl ∈ rest := by
        rcases List.mem_cons.mp hfl with rfl | h
        · exact absurd hold hnold
        · exact h
      simp only [hold, if_true]
      exact ih df errs ⟨fl, hmem, hnold, hnkeys⟩ hsub
    · by_cases hc : df.contains f₀
      · have hf₀df : f₀ ∈ df := by simpa using hc
        have hne : fl ≠ f₀ := by
          rintro rfl
          exact hnkeys (hsub fl hf₀df)
        have hmem : fl ∈ rest := by
          rcases List.mem_cons.mp hfl with rfl | h
          · exact absurd rfl hne
          · exact h
        simp only [hold, hc, if_true, if_false, Bool.false_eq_true]
        exact ih (df.erase f₀) errs ⟨fl, hmem, hnold, hnkeys⟩
          (fun x hx => hsub x (List.mem_of_mem_erase hx))
      · simp only [hold, hc, if_false, Bool.false_eq_true]
        exact flatLoopErr_sticky rest df

/-- A documented key implemented by no field survives into the leftover set. -/
theorem flatErase_mem (fields : List String) :
    ∀ docFields k, k ∈ docFields → k ∉ fields → k ∈ flatErase fields docFields := by
  induction fields with
  | nil => intro df k hk _; exact hk
  | cons f₀ rest ih =>
    intro df k hk hnot
    have hne : k ≠ f₀ := fun h => hnot (h ▸ List.mem_cons_self _ _)
    have hrest : k ∉ rest := fun h => hnot (List.mem_cons_of_mem _ h)
    simp only [flatErase, List.foldl_cons]
    by_cases hold : pyContains f₀ "old_"
    · simp only [hold, if_true]
      exact ih df k hk hrest
    · simp only [hold, if_false, Bool.false_eq_true]
      exact ih (df.erase f₀) k ((List.mem_erase_of_ne hne).mpr hk) hrest

/-- When every documented key is implemented by a non-`old_` field, the
tracked documentation-key set is fully drained. -/
theorem flatErase_nil (fields : List String) :
    ∀ docFields, docFields.Nodup →
    (∀ k ∈ docFields, k ∈ fields ∧ ¬pyContains k "old_") →
    flatErase fields docFields = [] := by
  induction fields with
  | nil =>
    intro df _ hall
    cases df with
    | nil => rfl
    | cons x xs =>
      obtain ⟨hx, _⟩ := hall x (List.mem_cons_self _ _)
      simp at hx
  | cons f₀ rest ih =>
    intro df hnd hall
    simp only [flatErase, List.foldl_cons]
    by_cases hold : pyContains f₀ "old_"
    · simp only [hold, if_true]
      apply ih df hnd
      intro k hk
      obtain ⟨hkf, hknold⟩ := hall k hk
      rcases List.mem_cons.mp hkf with rfl | h
      · exact absurd hold hknold
      · exact ⟨h, hknold⟩
    · simp only [hold, if_false, Bool.false_eq_true]
      apply ih (df.erase f₀) (hnd.erase f₀)
      intro k hk
      have hkdf : k ∈ df := List.mem_of_mem_erase hk
      have hkne : k ≠ f₀ := ((List.Nodup.mem_erase_iff hnd).mp hk).1
      obtain ⟨hkf, hknold⟩ := hall k hkdf
      rcases List.mem_cons.mp hkf with rfl | h
      · exact absurd rfl hkne
      · exact ⟨h, hknold⟩

/-- On an exactly-matched, duplicate-free field map the loop leaves the error
flag as it found it. -/
theorem flatLoopErr_matched (fields : List String) :
    ∀ docFields errs,
    (fields.filter (fun fl => !pyContains fl "old_")).Nodup →
    (∀ fl ∈ fields, ¬pyContains fl "old_" → fl ∈ docFields) →
    flatLoopErr fields docFields errs = errs := by
  induction fields with
  | nil => intros; rfl
  | cons f₀ rest ih =>
    intro df errs hnd hin
    simp only [flatLoopErr]
    by_cases hold : pyContains f₀ "old_"
    · simp only [hold, if_true]
      have hnd' : (rest.filter (fun fl => !pyContains fl "old_")).Nodup := by
        have : (f₀ :: rest).filter (fun fl => !pyContains fl "old_")
            = rest.filter (fun fl => !pyContains fl "old_") := by
          simp [List.filter_cons, hold]
        rw [this] at hnd
        exact hnd
      exact ih df errs hnd' (fun fl hfl h => hin fl (List.mem_cons_of_mem _ hfl) h)
    · have hf₀ : f₀ ∈ df := hin f₀ (List.mem_cons_self _ _) hold
      have hc : df.contains f₀ = true := by simpa using hf₀
      simp only [hold, hc, if_true, if_false, Bool.false_eq_true]
      have hfc : (f₀ :: rest).filter (fun fl => !pyContains fl "old_")
          = f₀ :: rest.filter (fun fl => !pyContains fl "old_") := by
        simp [List.filter_cons, hold]
      rw [hfc] at hnd
      have hnotin := (List.nodup_cons.mp hnd).1
      apply ih (df.erase f₀) errs (List.nodup_cons.mp hnd).2
      intro fl hfl hflnold
      have hmem : fl ∈ df := hin fl (List.mem_cons_of_mem _ hfl) hflnold
      have hne : fl ≠ f₀ := by
        rintro rfl
        exact hnotin (List.mem_filter.mpr ⟨hfl, by simpa using hflnold⟩)
      exact (List.mem_erase_of_ne hne).mpr hmem

/-- With only `simpleFieldDoc` documentation entries the field loop never
recurses, never crashes and never touches the schemas: it just drains the
documentation-key set and accumulates the mismatch errors. -/
theorem fieldsAux_flat (recur : SerRecur) (env : SerializerEnv) (serName : String)
    (items : Obj) (hflat : ∀ kv ∈ items, simpleFieldDoc kv.2 = true) :
    ∀ (fields docFields : List String) (schemas : Obj) (errors : Bool),
    (∀ fl ∈ docFields, (alookup items fl).isSome) →
    parseSerializerFieldsAux recur env serName items fields docFields schemas errors
      = .ok (flatErase fields docFields) schemas (flatLoopErr fields docFields errors) := by
  intro fields
  induction fields with
  | nil => intro docFields schemas errors _; rfl
  | cons fl rest ih =>
    intro docFields schemas errors hsub
    by_cases hold : pyContains fl "old_"
    · simp only [parseSerializerFieldsAux, hold, if_true]
      rw [ih docFields schemas errors hsub]
      simp [flatErase, flatLoopErr, hold]
    · by_cases hmem : fl ∈ docFields
      · have hc : docFields.contains fl = true := by simpa using hmem
        obtain ⟨v, hv⟩ := Option.isSome_iff_exists.mp (hsub fl hmem)
        have hs := hflat (fl, v) (alookup_mem hv)
        cases v with
        | obj o =>
          simp only [simpleFieldDoc, Bool.and_eq_true] at hs
          obtain ⟨⟨hrefN, hdescS⟩, htypeM⟩ := hs
          cases htl : alookup o "type" with
          | none => rw [htl] at htypeM; cases htypeM
          | some t =>
            rw [htl] at htypeM
            have harr : t.isStrEq "array" = false := by simpa using htypeM
            have href : alookup o "$ref" = none := by
              simpa [Option.isNone_iff_eq_none] using hrefN
            have hdesc : (alookup o "description").isSome = true := hdescS
            have htype : (alookup o "type").isSome = true := by simp [htl]
            simp only [parseSerializerFieldsAux, hold, hc, hv, if_false, if_true,
              Bool.false_eq_true, not_true, Option.getD_some, pyIn, pyGetItemStr, href,
              Option.isSome_none, Bool.not_eq_true, hdesc, htype, htl, harr, not_false_iff]
            rw [ih (docFields.erase fl) schemas errors
              (fun x hx => hsub x (List.mem_of_mem_erase hx))]
            simp [flatErase, flatLoopErr, hold, hc, hmem]
        | str s => simp [simpleFieldDoc] at hs
        | int n => simp [simpleFieldDoc] at hs
        | bool b => simp [simpleFieldDoc] at hs
        | null => simp [simpleFieldDoc] at hs
        | arr l => simp [simpleFieldDoc] at hs
      · have hc : docFields.contains fl = false := by simpa using hmem
        simp only [parseSerializerFieldsAux, hold, hc, if_false, Bool.false_eq_true,
          not_false_iff, if_true]
        rw [ih docFields schemas true hsub]
        have her : docFields.erase fl = docFields := List.erase_of_not_mem hmem
        simp [flatErase, flatLoopErr, hold, hc, her, hmem]

/-- C1 counterexample: `WidgetSerializer` implements fields `a` and `b` but
documents only `a` (an implemented-but-not-documented asymmetry).  The error
flag is recorded (`true`), yet — because the documentation-key set is fully
drained — the `Widget` schema (with `WidgetResponse` and `WidgetList`) IS
registered in the components area, contradicting the claim that the
components area is not populated for a declaration with an asymmetry. -/
theorem c1_counterexample :
    parseSerializer 1 [] (some c1MismatchSerializer) "Widget" [] false
      = .ok (registerEntitySchemas "Widget" ["a"]
          [("a", .obj [("description", .str "The a"), ("type", .str "string")])] []) true ∧
    (alookup (registerEntitySchemas "Widget" ["a"]
        [("a", .obj [("description", .str "The a"), ("type", .str "string")])] [])
      "Widget").isSome = true := by
  exact ⟨rfl, rfl⟩

/-- C1 (amended): for a serializer whose documentation entries are plain
mappings (no `$ref`, a `description`, a non-`array` `type`):
(i) an implemented non-`old_` field missing from the documentation records a
reportable error, and when every documented key is nevertheless implemented
the schema is still registered (with the error flag set);
(ii) a documented key implemented by no field records a reportable error and
registers nothing — the components area is returned unchanged;
(iii) on an exact bidirectional match the three schemas are registered and
the error flag is untouched. -/
theorem c1_field_set_reconciliation (fuel : Nat) (env : SerializerEnv)
    (s : Serializer) (modelName : String) (schemas : Obj) (errors : Bool) (items : Obj)
    (hdoc : s.doc = .value (.obj items))
    (hflat : ∀ kv ∈ items, simpleFieldDoc kv.2 = true)
    (hfresh : alookup schemas modelName = none)
    (hnd : (akeys items).Nodup) :
    ((∃ fl ∈ s.fieldMap, ¬pyContains fl "old_" ∧ fl ∉ akeys items) →
      (∀ k ∈ akeys items, k ∈ s.fieldMap ∧ ¬pyContains k "old_") →
      parseSerializer (fuel + 1) env (some s) modelName schemas errors
        = .ok (registerEntitySchemas modelName (akeys items) items schemas) true) ∧
    ((∃ k ∈ akeys items, k ∉ s.fieldMap) →
      parseSerializer (fuel + 1) env (some s) modelName schemas errors
        = .ok schemas true) ∧
    ((s.fieldMap.filter (fun fl => !pyContains fl "old_")).Nodup →
      (∀ fl ∈ s.fieldMap, ¬pyContains fl "old_" → fl ∈ akeys items) →
      (∀ k ∈ akeys items, k ∈ s.fieldMap ∧ ¬pyContains k "old_") →
      parseSerializer (fuel + 1) env (some s) modelName schemas errors
        = .ok (registerEntitySchemas modelName (akeys items) items schemas) errors) := by
  have hsub0 : ∀ fl ∈ akeys items, (alookup items fl).isSome :=
    fun fl hfl => alookup_isSome_of_mem hfl
  have hred : parseSerializer (fuel + 1) env (some s) modelName schemas errors
      = (if ¬ (flatErase s.fieldMap (akeys items)).isEmpty then
          SerResult.ok schemas true
        else .ok (registerEntitySchemas modelName (akeys items) items schemas)
            (flatLoopErr s.fieldMap (akeys items) errors)) := by
    show parseSerializerStep (parseSerializer fuel) env (some s) modelName schemas errors = _
    simp only [parseSerializerStep, hfresh, Option.isSome_none, Bool.false_eq_true,
      if_false, hdoc]
    rw [fieldsAux_flat (parseSerializer fuel) env s.name items hflat s.fieldMap
      (akeys items) schemas errors hsub0]
  refine ⟨?_, ?_, ?_⟩
  · intro hex hall
    rw [hred, flatErase_nil s.fieldMap (akeys items) hnd hall,
      flatLoopErr_missing (akeys items) s.fieldMap (akeys items) errors hex (fun x hx => hx)]
    simp
  · rintro ⟨k, hk, hknot⟩
    rw [hred]
    have hmem := flatErase_mem s.fieldMap (akeys items) k hk hknot
    have hne : (flatErase s.fieldMap (akeys items)).isEmpty = false := by
      cases hfe : flatErase s.fieldMap (akeys items) with
      | nil => rw [hfe] at hmem; simp at hmem
      | cons a l => simp
    simp [hne]
  · intro hfnd hin hall
    rw [hred, flatErase_nil s.fieldMap (akeys items) hnd hall,
      flatLoopErr_matched s.fieldMap (akeys items) errors hfnd hin]
    simp

/-- C1 witness: an exactly matching serializer registers its schemas with no
error. -/
theorem c1_field_set_reconciliation_witness :
    parseSerializer 1 []
      (some { name := "WidgetSerializer", fieldMap := ["a"],
              doc := .value (.obj
                [("a", .obj [("description", .str "The a"), ("type", .str "string")])]) })
      "Widget" [] false
      = .ok (registerEntitySchemas "Widget" ["a"]
          [("a", .obj [("description", .str "The a"), ("type", .str "string")])] []) false := by
  exact (c1_field_set_reconciliation 0 []
    { name := "WidgetSerializer", fieldMap := ["a"],
      doc := .value (.obj
        [("a", .obj [("description", .str "The a"), ("type", .str "string")])]) }
    "Widget" [] false
    [("a", .obj [("description", .str "The a"), ("type", .str "string")])]
    rfl (by decide) rfl (by decide)).2.2 (by decide) (by decide) (by decide)

/-- C2: the registration guard makes a second registration attempt a no-op
(first conjunct), and a successful registration does leave the entity name
present (second conjunct); but the self-reference guard of
`parse_sub_serializer` compares the serializer *class* name
(`WidgetSerializer`) with the referenced *model* name (`Widget`), which never
match under the conventional naming, so reconciling a serializer whose
documentation references its own model recurses without bound: for every
fuel the parse runs out of fuel (third conjunct), where Python raises
`RecursionError` instead of terminating without error. -/
theorem c2_idempotent_but_selfref_diverges :
    (∀ (fuel : Nat) (env : SerializerEnv) (ser : Option Serializer) (m : String)
        (sch : Obj) (e : Bool), (alookup sch m).isSome = true →
      parseSerializer (fuel + 1) env ser m sch e = .ok sch e) ∧
    (∀ (m : String) (req : List String) (items sch : Obj),
      (alookup (registerEntitySchemas m req items sch) m).isSome = true) ∧
    (∀ fuel : Nat,
      parseSerializer fuel selfRefEnv (some selfRefSerializer) "Widget" [] false
        = .outOfFuel) := by
  refine ⟨?_, ?_, ?_⟩
  · intro fuel env ser m sch e h
    cases ser with
    | none => rfl
    | some s =>
      show parseSerializerStep (parseSerializer fuel) env (some s) m sch e = _
      simp only [parseSerializerStep, h, if_true]
  · intro m req items sch
    have h1 : m ++ "List" ≠ m := by
      intro h
      have hl := congrArg String.length h
      rw [String.length_append] at hl
      have h4 : ("List" : String).length = 4 := rfl
      rw [h4] at hl
      omega
    have h2 : m ++ "Response" ≠ m := by
      intro h
      have hl := congrArg String.length h
      rw [String.length_append] at hl
      have h8 : ("Response" : String).length = 8 := rfl
      rw [h8] at hl
      omega
    unfold registerEntitySchemas
    rw [alookup_aset_ne _ (m ++ "List") m _ h1, alookup_aset_ne _ (m ++ "Response") m _ h2,
      alookup_aset_self]
    rfl
  · intro fuel
    induction fuel with
    | zero => rfl
    | succ fuel ih =>
      show (match (match parseSerializer fuel selfRefEnv (some selfRefSerializer)
              "Widget" [] false with
            | .outOfFuel => SerFieldsResult.outOfFuel
            | .crash => SerFieldsResult.crash
            | .ok s e => SerFieldsResult.ok [] s e) with
          | .outOfFuel => SerResult.outOfFuel
          | .crash => SerResult.crash
          | .ok df s e =>
            if ¬ df.isEmpty then SerResult.ok s true
            else SerResult.ok (registerEntitySchemas "Widget" ["child"]
              [("child", Value.obj [("$ref", Value.str "#/components/schemas/Widget")])] s) e)
          = SerResult.outOfFuel
      rw [ih]

/-- C2 witness: with `Widget` already registered, a second `parse_serializer`
call returns the components unchanged with no error. -/
theorem c2_idempotent_witness :
    parseSerializer 1 [] (some selfRefSerializer) "Widget" [("Widget", Value.null)] false
      = .ok [("Widget", Value.null)] false := by
  exact c2_idempotent_but_selfref_diverges.1 0 [] (some selfRefSerializer) "Widget"
    [("Widget", Value.null)] false rfl

/-- C8 counterexample: a field whose validator metadata parses to a
non-mapping (here the plain string `just text`) does not record a reportable
error that skips only that field — it raises an uncaught `AttributeError` at
`field_data.get('generative', False)`, killing the run: the following
well-formed field `size` is never processed and no schema is registered. -/
theorem c8_counterexample :
    parseInputSchema "post"
      [ ("name", some (.value (.str "just text"))),
        ("size", some (.value (.obj
          [("description", .str "The size"), ("type", .str "integer")]))) ]
      = .crash "name" := by
  rfl

/-- C8 (amended): a missing validator or unparseable (malformed-YAML) metadata
each record a reportable error and abandon only that field — the loop
continues with the remaining fields, which still reach the registered schema;
but a metadata value that is not a mapping crashes the run with an uncaught
`AttributeError` instead of recording an error.  The concrete conjunct shows
a run where the first field's validator is missing and the second field still
contributes to the registered schema with the error flag set. -/
theorem c8_field_error_containment :
    (∀ (mn field : String) (rest : List (String × Option YamlDoc))
        (req : List String) (props : Obj) (errs : Bool),
      parseInputSchemaGo mn ((field, none) :: rest) req props errs =
        parseInputSchemaGo mn rest req props true) ∧
    (∀ (mn field : String) (rest : List (String × Option YamlDoc))
        (req : List String) (props : Obj) (errs : Bool),
      parseInputSchemaGo mn ((field, some .malformed) :: rest) req props errs =
        parseInputSchemaGo mn rest req props true) ∧
    (∀ (mn field : String) (v : Value) (rest : List (String × Option YamlDoc))
        (req : List String) (props : Obj) (errs : Bool),
      (∀ o, v ≠ .obj o) →
      parseInputSchemaGo mn ((field, some (.value v)) :: rest) req props errs =
        .crash field) ∧
    parseInputSchema "post"
      [ ("name", none),
        ("size", some (.value (.obj
          [("description", .str "The size"), ("type", .str "integer")]))) ]
      = .registered (.obj
          [ ("type", .str "object"),
            ("required", .arr [.str "size"]),
            ("properties", .obj [("size", .obj
              [("description", .str "The size"), ("type", .str "integer")])]) ]) true := by
  refine ⟨fun _ _ _ _ _ _ => rfl, fun _ _ _ _ _ _ => rfl, ?_, rfl⟩
  intro mn field v rest req props errs hv
  cases v with
  | obj o => exact absurd rfl (hv o)
  | str s => rfl
  | int n => rfl
  | bool b => rfl
  | null => rfl
  | arr l => rfl

/-- C8 witness: the crash clause applied to a string-valued metadata block. -/
theorem c8_field_error_containment_witness :
    parseInputSchemaGo "post" [("name", some (.value (.str "t")))] [] [] false =
      .crash "name" := by
  exact c8_field_error_containment.2.2.1 "post" "name" (.str "t") [] [] [] false
    (fun o h => Value.noConfusion h)

/-- C10: the docstring-trimming helper `doc_trim` is not idempotent.  On the
one-line docstring `"a"` the helper appends a de-indented copy of the first
line after the already-added stripped first line (the source loops over all
lines even though its comments say the first line is special), so each
application duplicates the first line: `doc_trim("a") = "a\na"` while
`doc_trim(doc_trim("a")) = "a\na\na"`. -/
theorem c10_docTrim_not_idempotent :
    docTrim "a" = "a\na" ∧ docTrim (docTrim "a") = "a\na\na" ∧
    docTrim (docTrim "a") ≠ docTrim "a" := by
  refine ⟨rfl, rfl, ?_⟩
  decide

/-- C6 (amended): module resolution records an error and leaves `info.version`
unset when `__version__` is missing, or when it does not have exactly three
dot-separated components; when it has exactly three dot-separated components
(numericness is not checked) `info.version` is populated and the only error
that can be recorded is the missing-docstring one. -/
theorem c6_version_check (spec : Obj) (name : String) (version : Option String)
    (doc : Option String) (info : Obj)
    (hinfo : alookup spec "info" = some (.obj info))
    (hv : alookup info "version" = none) :
    (version = none →
      (parseModule spec name version doc).2 = true ∧
      alookup (specInfo (parseModule spec name version doc).1) "version" = none) ∧
    (∀ v, version = some v → (pySplitDot v).length ≠ 3 →
      (parseModule spec name version doc).2 = true ∧
      alookup (specInfo (parseModule spec name version doc).1) "version" = none) ∧
    (∀ v, version = some v → (pySplitDot v).length = 3 →
      alookup (specInfo (parseModule spec name version doc).1) "version" = some (.str v) ∧
      ((parseModule spec name version doc).2 = true ↔ doc = none)) := by
  refine ⟨?_, ?_, ?_⟩
  · rintro rfl
    constructor
    · simp [parseModule, hinfo]
    · simp only [parseModule, hinfo, specInfo, alookup_aset_self]
      rw [alookup_aset_ne info "title" "version" _ (by decide)]
      exact hv
  · rintro v rfl hlen
    constructor
    · simp [parseModule, hinfo, if_pos hlen]
    · simp only [parseModule, hinfo, specInfo, if_pos hlen, alookup_aset_self]
      rw [alookup_aset_ne info "title" "version" _ (by decide)]
      exact hv
  · rintro v rfl hlen
    have hne : ¬ (pySplitDot v).length ≠ 3 := by simp [hlen]
    constructor
    · simp only [parseModule, hinfo, specInfo, if_neg hne]
      rw [alookup_aset_ne _ "externalDocs" "info" _ (by decide),
        alookup_aset_ne _ "servers" "info" _ (by decide), alookup_aset_self]
      rw [alookup_aset_ne _ "description" "version" _ (by decide), alookup_aset_self]
    · simp only [parseModule, hinfo, if_neg hne, ensureDocstring]
      cases doc <;> simp

/-- C6 witness: on the seeded spec, with version string `"1.2"` (two parts),
the run records an error and does not populate `info.version`. -/
theorem c6_version_check_witness :
    (parseModule defaultSpec "membership" (some "1.2") (some "d")).2 = true ∧
    alookup (specInfo (parseModule defaultSpec "membership" (some "1.2") (some "d")).1)
      "version" = none := by
  exact (c6_version_check defaultSpec "membership" (some "1.2") (some "d")
    [("contact", .obj [("email", .str "developers@cloudcix.com")])] rfl rfl).2.1
    "1.2" rfl (by decide)

/-- The value of `normalizeResponse` on an empty `200` response of a
fetch-collection (`get`, list) operation, for any entity name. -/
theorem normalizeResponse_list_200 (model : String) :
    normalizeResponse "get" true model "200" [] =
      [ ("description", .str "OK"),
        ("content", jsonSchemaRef ("#/components/schemas/" ++ model ++ "List")) ] := by
  simp [normalizeResponse, defaultResponseDescription, alookup, aset, Value.isNoneStr,
    List.filter, jsonSchemaRef]

/-- C7: on a fetch-collection operation (`get` with a Collection view), a `200`
response declared as the empty mapping is normalized to carry description
`"OK"` and a JSON content block referencing `#/components/schemas/{Entity}List`. -/
theorem c7_empty_list_200_normalized (model : String) (rs : List (String × Obj))
    (h : alookup rs "200" = some []) :
    alookup (installDefaultResponseData "get" true model rs) "200" =
      some [ ("description", .str "OK"),
             ("content", jsonSchemaRef ("#/components/schemas/" ++ model ++ "List")) ] := by
  unfold installDefaultResponseData
  rw [alookup_aset_ne _ "401" "200" _ (by decide), alookup_map_keyed, h]
  simp [normalizeResponse_list_200]

/-- C7 witness: for entity `Widget` the normalized empty `200` list response
references `#/components/schemas/WidgetList`. -/
theorem c7_empty_list_200_normalized_witness :
    alookup (installDefaultResponseData "get" true "Widget" [("200", [])]) "200" =
      some [ ("description", .str "OK"),
             ("content", jsonSchemaRef "#/components/schemas/WidgetList") ] := by
  exact c7_empty_list_200_normalized "Widget" [("200", [])] rfl

/-- C9: whatever the docstring declared for code `401`, after response
normalization the entry for `401` is exactly the fixed reference
`{'$ref': '#/components/responses/401'}` — it is force-set last. -/
theorem c9_401_force_set (methodName : String) (getIsList : Bool) (modelName : String)
    (responses : List (String × Obj)) :
    alookup (installDefaultResponseData methodName getIsList modelName responses) "401" =
      some [("$ref", .str "#/components/responses/401")] := by
  unfold installDefaultResponseData
  exact alookup_aset_self _ _ _

/-- C3 counterexample: response normalization rewrites a declared empty `4xx`
response into `{'$ref': '#/components/responses/<code>'}` for *any* `4xx`
code, recording no error (`install_default_response_data` has no error path at
all), while the components area only ever holds the seeded responses
`400/401/403/404` (`docgen.py` never writes `components['responses']`).  A
declared empty `402` therefore leaves a reference with no matching component
in a run with no reportable error. -/
theorem c3_counterexample :
    alookup (installDefaultResponseData "get" false "Widget" [("402", [])]) "402"
      = some [("$ref", .str "#/components/responses/402")] ∧
    alookup defaultResponses "402" = none := by
  exact ⟨rfl, rfl⟩

/-- C3 (amended): references placed by response normalization for declared
empty `4xx` responses resolve when the code is one of the seeded
`400/401/403/404` components (and the force-set `401` reference always
resolves); an empty `4xx` response with any other code produces a reference
with no matching component entry and no reportable error. -/
theorem c3_seeded_4xx_resolve (mn : String) (l : Bool) (model : String) (code : String)
    (hc : code = "400" ∨ code = "401" ∨ code = "403" ∨ code = "404") :
    normalizeResponse mn l model code []
      = [("$ref", .str ("#/components/responses/" ++ code))] ∧
    (alookup defaultResponses code).isSome = true ∧
    (alookup defaultResponses "401").isSome = true := by
  rcases hc with rfl | rfl | rfl | rfl <;>
    exact ⟨by unfold normalizeResponse; rw [if_pos (by decide)], rfl, rfl⟩

/-- C3 witness: the seeded-code resolution applied at code `400`. -/
theorem c3_seeded_4xx_resolve_witness :
    normalizeResponse "get" false "Widget" "400" []
      = [("$ref", .str "#/components/responses/400")] ∧
    (alookup defaultResponses "400").isSome = true ∧
    (alookup defaultResponses "401").isSome = true := by
  exact c3_seeded_4xx_resolve "get" false "Widget" "400" (Or.inl rfl)

/-- C6 counterexample: the claim requires an error whenever the version string
does not have three *numeric* components, but the source only counts the
dot-separated parts.  For version `"a.b.c"` no error is recorded and
`info.version` is populated with `"a.b.c"`. -/
theorem c6_counterexample :
    (parseModule defaultSpec "membership" (some "a.b.c") (some "d")).2 = false ∧
    alookup (specInfo (parseModule defaultSpec "membership" (some "a.b.c") (some "d")).1)
      "version" = some (.str "a.b.c") := by
  exact ⟨rfl, rfl⟩

end Docgen
